import Mathlib

/-!
Verification of the DoubaoVoice streaming-recognition daemon
(`src/REFERENCE.py`), shallowly embedded in Lean 4.

Bytes are modelled as `Nat` (wire bytes are in `0..255`; the opaque payload
region produced by the abstract gzip/JSON models may carry larger values, which
no code under verification ever inspects numerically).

Two standard-library functions are modelled abstractly, since their byte-level
output is opaque to the program under verification:
* `gzip.compress` / `gzip.decompress`: an injective encoding prefixed by the
  gzip magic bytes `0x1f 0x8b`, with decompression the partial inverse that
  fails on any input not starting with the magic.  The program only relies on
  compression being invertible and on decompression failing on non-gzip data.
* `json.dumps` / `json.loads`: an injective self-delimiting encoding of a JSON
  value (`jsonEncode`), with `jsonParse` the partial inverse.  JSON arrays are
  omitted from the value type: the program only ever reads object fields
  (`payload_msg['result']`, `.get('text')`), never array elements.
-/

/-! ### Protocol constants (`ProtocolVersion`, `MessageType`, …) -/

namespace MessageType

def CLIENT_FULL_REQUEST : Nat := 0b0001

def CLIENT_AUDIO_ONLY_REQUEST : Nat := 0b0010

def SERVER_FULL_RESPONSE : Nat := 0b1001

def SERVER_ERROR_RESPONSE : Nat := 0b1111

end MessageType

namespace MessageTypeSpecificFlags

def NO_SEQUENCE : Nat := 0b0000

def POS_SEQUENCE : Nat := 0b0001

def NEG_SEQUENCE : Nat := 0b0010

def NEG_WITH_SEQUENCE : Nat := 0b0011

end MessageTypeSpecificFlags

namespace SerializationType

def NO_SERIALIZATION : Nat := 0b0000

def JSON : Nat := 0b0001

end SerializationType

namespace CompressionType

def GZIP : Nat := 0b0001

end CompressionType

def SAMPLE_RATE : Nat := 16000

def SEGMENT_DURATION_MS : Nat := 200

/-! ### Big-endian 32-bit packing (`struct.pack`/`struct.unpack` with `>i`/`>I`) -/

/-- Big-endian byte list of a 32-bit natural (`struct.pack('>I', n)`). -/
def natToBe32 (n : Nat) : List Nat :=
  [n / 2 ^ 24 % 256, n / 2 ^ 16 % 256, n / 2 ^ 8 % 256, n % 256]

/-- Value of a 4-byte big-endian list. -/
def be32ToNat (l : List Nat) : Nat :=
  match l with
  | [a, b, c, d] => ((a * 256 + b) * 256 + c) * 256 + d
  | _ => 0

/-- `struct.pack('>i', z)`: two's-complement big-endian encoding of a signed
32-bit integer. -/
def packI32 (z : Int) : List Nat :=
  natToBe32 (z % 2 ^ 32).toNat

/-- `struct.pack('>I', n)`. -/
def packU32 (n : Nat) : List Nat :=
  natToBe32 n

/-- `struct.unpack('>i', l[:4])`: `none` models the `struct.error` raised when
fewer than 4 bytes are available. -/
def unpackI32 (l : List Nat) : Option Int :=
  if l.length < 4 then none
  else
    let w := be32ToNat (l.take 4)
    some (if w ≥ 2 ^ 31 then (w : Int) - 2 ^ 32 else (w : Int))

/-- `struct.unpack('>I', l[:4])`. -/
def unpackU32 (l : List Nat) : Option Nat :=
  if l.length < 4 then none else some (be32ToNat (l.take 4))

/-! ### Abstract gzip model -/

/-- Abstract model of `gzip.compress`: the gzip magic bytes `0x1f 0x8b`
followed by the payload. -/
def gzipCompress (b : List Nat) : List Nat :=
  31 :: 139 :: b

/-- Abstract model of `gzip.decompress`: partial inverse of `gzipCompress`,
failing (raising, in Python) on any input that does not begin with the gzip
magic bytes. -/
def gzipDecompress : List Nat → Option (List Nat)
  | 31 :: 139 :: rest => some rest
  | _ => none

/-! ### Abstract JSON model -/

mutual

/-- JSON values, as far as the program inspects them.  Arrays are omitted
(see the header comment). -/
inductive Json where
  | null : Json
  | bool : Bool → Json
  | num : Int → Json
  | str : String → Json
  | obj : JsonObj → Json
deriving DecidableEq

/-- Field list of a JSON object. -/
inductive JsonObj where
  | nil : JsonObj
  | cons : String → Json → JsonObj → JsonObj
deriving DecidableEq

end

mutual

/-- Abstract model of `json.dumps(·).encode('utf-8')`: a self-delimiting
tagged encoding of a JSON value. -/
def jsonEncode : Json → List Nat
  | .null => [0]
  | .bool b => [1, if b then 1 else 0]
  | .num n => [2, if n < 0 then 1 else 0, n.natAbs]
  | .str s => 3 :: s.data.length :: s.data.map Char.toNat
  | .obj o => 4 :: jsonObjEncode o

/-- Encoding of an object's field list. -/
def jsonObjEncode : JsonObj → List Nat
  | .nil => [0]
  | .cons k v rest =>
      1 :: k.data.length :: (k.data.map Char.toNat ++ jsonEncode v ++ jsonObjEncode rest)

end

/-- Split off the first `n` elements, failing if fewer are available. -/
def readN (n : Nat) (l : List Nat) : Option (List Nat × List Nat) :=
  if l.length < n then none else some (l.take n, l.drop n)

mutual

/-- Fuel-bounded decoder for `jsonEncode`. -/
def jsonDecodeAux : Nat → List Nat → Option (Json × List Nat)
  | 0, _ => none
  | _ + 1, 0 :: rest => some (.null, rest)
  | _ + 1, 1 :: b :: rest => some (.bool (b != 0), rest)
  | _ + 1, 2 :: sgn :: m :: rest =>
      some (.num (if sgn = 0 then (m : Int) else -(m : Int)), rest)
  | _ + 1, 3 :: len :: rest =>
      (readN len rest).map fun p => (.str (String.mk (p.1.map Char.ofNat)), p.2)
  | fuel + 1, 4 :: rest =>
      (jsonObjDecodeAux fuel rest).map fun p => (.obj p.1, p.2)
  | _, _ => none

/-- Fuel-bounded decoder for `jsonObjEncode`. -/
def jsonObjDecodeAux : Nat → List Nat → Option (JsonObj × List Nat)
  | 0, _ => none
  | _ + 1, 0 :: rest => some (.nil, rest)
  | fuel + 1, 1 :: len :: rest => do
      let p1 ← readN len rest
      let p2 ← jsonDecodeAux fuel p1.2
      let p3 ← jsonObjDecodeAux fuel p2.2
      some (.cons (String.mk (p1.1.map Char.ofNat)) p2.1 p3.1, p3.2)
  | _, _ => none

end

/-- Abstract model of `json.loads`: partial inverse of `jsonEncode`; `none`
models a raised `JSONDecodeError` (or `UnicodeDecodeError`). -/
def jsonParse (l : List Nat) : Option Json :=
  match jsonDecodeAux (l.length + 1) l with
  | some (j, []) => some j
  | _ => none

/-! ### `AsrRequestHeader` / `RequestBuilder` -/

/-- `AsrRequestHeader.to_bytes()`: the serialization and compression nibbles
are always JSON and GZIP (the source never changes the constructor defaults),
so only the message type and flags vary.  Byte 0 is
`(ProtocolVersion.V1 << 4) | 1` and byte 3 is the reserved zero byte. -/
def asrHeaderBytes (messageType flags : Nat) : List Nat :=
  [0b0001 * 16 + 1, messageType * 16 + flags,
    SerializationType.JSON * 16 + CompressionType.GZIP, 0]

/-- The `user` sub-dict of the full-client-request payload. -/
def fullClientUser : Json :=
  .obj (.cons "uid" (.str "doubaovoice_user") .nil)

/-- The `audio` sub-dict of the full-client-request payload. -/
def fullClientAudio : Json :=
  .obj (.cons "format" (.str "pcm") (.cons "codec" (.str "raw")
    (.cons "rate" (.num 16000) (.cons "bits" (.num 16)
    (.cons "channel" (.num 1) .nil)))))

/-- The `request` sub-dict of the full-client-request payload. -/
def fullClientOptions : Json :=
  .obj (.cons "model_name" (.str "bigmodel") (.cons "enable_itn" (.bool true)
    (.cons "enable_punc" (.bool true) (.cons "enable_ddc" (.bool true)
    (.cons "show_utterances" (.bool true) (.cons "enable_nonstream" (.bool true)
    (.cons "end_window_size" (.num 3000) .nil)))))))

/-- The `payload` dict built by `RequestBuilder.new_full_client_request`. -/
def fullClientRequestPayload : Json :=
  .obj (.cons "user" fullClientUser (.cons "audio" fullClientAudio
    (.cons "request" fullClientOptions .nil)))

/-- `RequestBuilder.new_full_client_request(seq)`: header ‖ sequence ‖
payload-size ‖ gzip(JSON payload). -/
def new_full_client_request (seq : Int) : List Nat :=
  let compressed := gzipCompress (jsonEncode fullClientRequestPayload)
  asrHeaderBytes MessageType.CLIENT_FULL_REQUEST MessageTypeSpecificFlags.POS_SEQUENCE
    ++ packI32 seq ++ packU32 compressed.length ++ compressed

/-- `RequestBuilder.new_audio_only_request(seq, segment, is_last)`: if
`is_last`, flags become `NEG_WITH_SEQUENCE` and the sequence is negated before
packing; otherwise flags are `POS_SEQUENCE` and the sequence is packed as
given. -/
def new_audio_only_request (seq : Int) (segment : List Nat) (isLast : Bool) :
    List Nat :=
  let seq2 := if isLast then -seq else seq
  let flags := if isLast then MessageTypeSpecificFlags.NEG_WITH_SEQUENCE
    else MessageTypeSpecificFlags.POS_SEQUENCE
  let compressed := gzipCompress segment
  asrHeaderBytes MessageType.CLIENT_AUDIO_ONLY_REQUEST flags
    ++ packI32 seq2 ++ packU32 compressed.length ++ compressed

/-- The flags nibble of an encoded frame: `msg[1] & 0x0f`. -/
def frameFlagsNibble (f : List Nat) : Nat :=
  f.getD 1 0 % 16

/-- The sequence field of an encoded client frame, decoded as a signed
big-endian 32-bit integer from bytes 4..8. -/
def frameSeqField (f : List Nat) : Option Int :=
  unpackI32 (f.drop 4)

/-! ### `AsrResponse` / `ResponseParser` -/

/-- `AsrResponse`: the decoder's result record.  (`payload_size` is set
dynamically by the Python parser in the server branches but never read by the
program, so it is not modelled.) -/
structure AsrResponse where
  code : Int
  is_last_package : Bool
  payload_sequence : Int
  payload_msg : Option Json
deriving DecidableEq

/-- The freshly initialized `AsrResponse()`. -/
def AsrResponse.init : AsrResponse :=
  { code := 0, is_last_package := false, payload_sequence := 0, payload_msg := none }

/-- The optional-sequence step of the parser (`if flags & 0x01`): read a
signed big-endian sequence number when flag bit 0 is set. -/
def parseSeqField (flags : Nat) (payload0 : List Nat) :
    Option (AsrResponse × List Nat) :=
  if flags % 2 = 1 then
    match unpackI32 payload0 with
    | none => none
    | some sq =>
        some ({ AsrResponse.init with payload_sequence := sq }, payload0.drop 4)
  else some (AsrResponse.init, payload0)

/-- The metadata stage of `ResponseParser.parse_response` (everything before
the payload-decompression step): header nibbles, optional sequence, the
`is_last`/skip flag bits, and the message-type-dependent size/error fields.
Returns the response decoded so far, the remaining payload bytes, and the
serialization and compression nibbles; `none` models a raised exception
(index/`struct.error` on a truncated header). -/
def parseMeta (msg : List Nat) : Option (AsrResponse × List Nat × Nat × Nat) :=
  if msg.length < 3 then none
  else
    let header_size := msg.getD 0 0 % 16
    let message_type := msg.getD 1 0 / 16
    let flags := msg.getD 1 0 % 16
    let serialization_method := msg.getD 2 0 / 16
    let message_compression := msg.getD 2 0 % 16
    let payload0 := msg.drop (header_size * 4)
    match parseSeqField flags payload0 with
    | none => none
    | some (r1, p1) =>
        let r2 := if flags / 2 % 2 = 1 then { r1 with is_last_package := true } else r1
        let p2 := if flags / 4 % 2 = 1 then p1.drop 4 else p1
        if message_type = MessageType.SERVER_FULL_RESPONSE then
          match unpackU32 p2 with
          | none => none
          | some _ => some (r2, p2.drop 4, serialization_method, message_compression)
        else if message_type = MessageType.SERVER_ERROR_RESPONSE then
          match unpackI32 p2, unpackU32 (p2.drop 4) with
          | some c, some _ =>
              some ({ r2 with code := c }, p2.drop 8, serialization_method,
                message_compression)
          | _, _ => none
        else some (r2, p2, serialization_method, message_compression)

/-- `ResponseParser.parse_response(msg)`.  `none` models a raised exception on
a truncated header; decompression or JSON failures on the trailing payload are
non-fatal and degrade to the metadata-only response. -/
def parse_response (msg : List Nat) : Option AsrResponse :=
  match parseMeta msg with
  | none => none
  | some (r, payload, serialization_method, message_compression) =>
      if payload = [] then some r
      else
        let decompressed : Option (List Nat) :=
          if message_compression = CompressionType.GZIP then gzipDecompress payload
          else some payload
        match decompressed with
        | none => some r
        | some p =>
            if serialization_method = SerializationType.JSON then
              some { r with payload_msg := jsonParse p }
            else some r

/-! ### `strip_trailing_punctuation` -/

/-- The punctuation set `.,!?;:。，！？；：、…~～` of
`strip_trailing_punctuation`. -/
def trailingPunctuation : List Char :=
  ['.', ',', '!', '?', ';', ':', '。', '，', '！', '？', '；', '：', '、', '…', '~', '～']

/-- `strip_trailing_punctuation(text)`: Python's `str.rstrip` with the
punctuation set, i.e. remove the longest trailing run of characters drawn from
the set. -/
def strip_trailing_punctuation (text : String) : String :=
  String.mk ((text.data.reverse.dropWhile (· ∈ trailingPunctuation)).reverse)

/-! ### Audio segmenter (`_send_audio`'s buffer loop) -/

/-- `segment_size = SAMPLE_RATE * 2 * SEGMENT_DURATION_MS // 1000` (6400). -/
def segment_size : Nat :=
  SAMPLE_RATE * 2 * SEGMENT_DURATION_MS / 1000

/-- Fuel-bounded form of the `while len(buffer) >= segment_size` loop: slice
off full segments from the front of the buffer.  The fuel only makes the
terminating while-loop structurally recursive; `splitAux_spec` below shows any
fuel of at least `buf.length` computes the loop's result. -/
def splitAux : Nat → List Nat → List (List Nat) × List Nat
  | 0, buf => ([], buf)
  | fuel + 1, buf =>
      if buf.length ≥ segment_size then
        let p := splitAux fuel (buf.drop segment_size)
        (buf.take segment_size :: p.1, p.2)
      else ([], buf)

/-- The segment-slicing loop of `_send_audio`: emit every full 6400-byte
segment from the buffer, keeping the remainder. -/
def splitSegments (buf : List Nat) : List (List Nat) × List Nat :=
  splitAux buf.length buf

/-! ### Sender path (`_send_audio`) -/

/-- One transmission of the sender path, before wire encoding: the sequence
number handed to `RequestBuilder.new_audio_only_request`, the raw segment
bytes, and the `is_last` flag. -/
structure AudioTx where
  seq : Int
  segment : List Nat
  isLast : Bool
deriving DecidableEq

/-- The transmitted (wire) sequence value of a transmission: the builder
negates the sequence for the final frame. -/
def txWireSeq (t : AudioTx) : Int :=
  if t.isLast then -t.seq else t.seq

/-- Non-final transmissions of a run of full segments, with consecutively
increasing sequence numbers (`seq += 1` after each send). -/
def segmentTxs (seq : Int) : List (List Nat) → List AudioTx
  | [] => []
  | s :: ss => ⟨seq, s, false⟩ :: segmentTxs (seq + 1) ss

/-- The transmissions of `_send_audio(ws, seq)`, given the items pulled from
the audio queue (`some chunk` for audio bytes, `none` for the stop sentinel).
The loop accumulates chunks in the buffer and sends one non-final frame per
full segment; on the stop sentinel (or when the modelled queue runs out) it
sends exactly one final frame carrying the drained remainder — `b''` when the
remainder is empty.  (The `running` flag and poll timeouts are concurrency
machinery: within one session the loop exits via the sentinel, which this
sequential model represents by the end of the item list.) -/
def sendAudioTx (seq : Int) (buf : List Nat) :
    List (Option (List Nat)) → List AudioTx
  | [] => [⟨seq, buf, true⟩]
  | none :: _ => [⟨seq, buf, true⟩]
  | some c :: rest =>
      let p := splitSegments (buf ++ c)
      segmentTxs seq p.1 ++ sendAudioTx (seq + p.1.length) p.2 rest

/-- The wire frames transmitted by `_send_audio`: each transmission encoded by
`RequestBuilder.new_audio_only_request`. -/
def sendAudioFrames (seq : Int) (buf : List Nat) (items : List (Option (List Nat))) :
    List (List Nat) :=
  (sendAudioTx seq buf items).map fun t => new_audio_only_request t.seq t.segment t.isLast

/-- `_asr_session` starts its sequence counter at 1. -/
def asrSessionStartSeq : Int := 1

/-- The handshake frame of `_asr_session`: the full client request is sent
with the initial counter value 1, after which the counter is incremented. -/
def asrSessionHandshakeFrame : List Nat :=
  new_full_client_request asrSessionStartSeq

/-- The audio transmissions of `_asr_session`: `_send_audio` is started with
the counter value after the handshake, i.e. `1 + 1 = 2`. -/
def asrSessionAudioTx (items : List (Option (List Nat))) : List AudioTx :=
  sendAudioTx (asrSessionStartSeq + 1) [] items

/-! ### Receiver path (`_receive_responses`) -/

/-- Python truthiness of a JSON value (`if response.payload_msg`): `None`,
`False`, `0`, `""` and `{}` are falsy. -/
def jsonTruthy : Json → Bool
  | .null => false
  | .bool b => b
  | .num n => n != 0
  | .str s => s != ""
  | .obj .nil => false
  | .obj (.cons _ _ _) => true

/-- First-match lookup in an object's field list (`json.loads` produces
dicts with unique keys, so first- vs last-match is indistinguishable). -/
def jsonObjLookup (key : String) : JsonObj → Option Json
  | .nil => none
  | .cons k v rest => if k = key then some v else jsonObjLookup key rest

/-- Statement-side predicate: the value is an object containing `key`.  (The
code model of Python's `in` operator, including its raising and substring
cases, is `pyContains` below.) -/
def jsonHasKey (key : String) : Json → Bool
  | .obj o => (jsonObjLookup key o).isSome
  | _ => false

/-- Statement-side field projection: the value of `key` when the value is an
object holding it. -/
def jsonGet (key : String) : Json → Option Json
  | .obj o => jsonObjLookup key o
  | _ => none

/-- Substring test on character lists (Python's `needle in haystack` for
strings). -/
def charsContain (needle : List Char) : List Char → Bool
  | [] => needle.isEmpty
  | a :: t => needle.isPrefixOf (a :: t) || charsContain needle t

/-- Python's `'result' in payload_msg`, evaluated on a truthy value: key
membership for a dict, substring test for a string, and a raised `TypeError`
(modelled `none`) for non-iterable values such as numbers or `True`. -/
def pyContains (key : String) : Json → Option Bool
  | .obj o => some (jsonObjLookup key o).isSome
  | .str s => some (charsContain key.data s.data)
  | _ => none

/-- Python's `payload_msg['result']`: the field value for a dict (a missing
key raises `KeyError`); subscripting a string — or any non-dict — with a
string key raises `TypeError`.  `none` models a raised exception. -/
def pySubscript (key : String) : Json → Option Json
  | .obj o => jsonObjLookup key o
  | _ => none

/-- Python's `v.get('text', '')`: dict lookup with a default; calling `.get`
on a non-dict raises `AttributeError` (modelled `none`). -/
def pyGetDefault (key : String) (dflt : Json) : Json → Option Json
  | .obj o => some ((jsonObjLookup key o).getD dflt)
  | _ => none

/-- The text-extraction step of `_receive_responses` (lines 765-768),
including its raising paths.  `none` models an exception that propagates to
the loop's outer handler (`TypeError` from `in` on a non-iterable body or
from subscripting a non-dict, `AttributeError` from `.get` on a non-dict
`result`); `some none` means the step completed without invoking the
callback; `some (some v)` means the callback is invoked with `v` — the raw
`.get` result, which Python does not require to be a string. -/
def extractStep (r : AsrResponse) : Option (Option Json) :=
  match r.payload_msg with
  | none => some none
  | some m =>
      if jsonTruthy m then
        match pyContains "result" m with
        | none => none
        | some false => some none
        | some true =>
            match pySubscript "result" m with
            | none => none
            | some v =>
                match pyGetDefault "text" (.str "") v with
                | none => none
                | some text =>
                    if jsonTruthy text then some (some text) else some none
      else some none

/-- One event observed by the receiver loop on the WebSocket: a binary
message, a `CLOSED`/`ERROR` message, or a poll timeout. -/
inductive WsEvent where
  | binary : List Nat → WsEvent
  | closedOrError : WsEvent
  | timeout : WsEvent
deriving DecidableEq

/-- Why the receiver loop ended. -/
inductive RecvEnd where
  | lastPackage : RecvEnd
  | errorCode : Int → RecvEnd
  | transportClosed : RecvEnd
  | decodeRaised : RecvEnd
  | extractionRaised : RecvEnd
deriving DecidableEq

/-- The receiver loop of `_receive_responses`, sequentialized over the finite
list of observed WebSocket events: collects every value handed to the
callback, and reports why the loop ended (`none` while events ran out with
the loop still running).  Per the source, text extraction happens before the
`is_last_package` and error-code checks; a frame whose decoding raises — or
whose text extraction raises — ends the loop via the outer exception handler.
(External cancellation and the `running` flag are concurrency machinery
outside this sequential model.) -/
def receiveLoop : List WsEvent → List Json × Option RecvEnd
  | [] => ([], none)
  | .timeout :: rest => receiveLoop rest
  | .closedOrError :: _ => ([], some .transportClosed)
  | .binary d :: rest =>
      match parse_response d with
      | none => ([], some .decodeRaised)
      | some r =>
          match extractStep r with
          | none => ([], some .extractionRaised)
          | some cb =>
              let texts := match cb with
                | some t => [t]
                | none => []
              if r.is_last_package then (texts, some .lastPackage)
              else if r.code ≠ 0 then (texts, some (.errorCode r.code))
              else
                let p := receiveLoop rest
                (texts ++ p.1, p.2)

/-- Statement-side predicate, formalizing the claim's phrase "message body
contains a recognized-text field" (`result.text` present) — regardless of
whether the text is empty. -/
def hasRecognizedTextField (r : AsrResponse) : Bool :=
  match r.payload_msg with
  | some m => jsonHasKey "result" m
      && (jsonGet "text" ((jsonGet "result" m).getD .null)).isSome
  | none => false

/-! ### `RealtimeASRClient` control state -/

/-- The queue- and flag-state of `RealtimeASRClient`: the `running` flag and
the audio queue (`some bytes` entries, `none` for the stop sentinel). -/
structure ASRClient where
  running : Bool
  audio_queue : List (Option (List Nat))
deriving DecidableEq

/-- `RealtimeASRClient.__init__`: `running = False`, empty queue. -/
def ASRClient.init : ASRClient :=
  { running := false, audio_queue := [] }

/-- `RealtimeASRClient.start()`: sets `running = True` (thread spawning is
outside the state model). -/
def ASRClient.start (c : ASRClient) : ASRClient :=
  { c with running := true }

/-- `RealtimeASRClient.feed_audio(audio_bytes)`: enqueue only when
`running`. -/
def ASRClient.feed_audio (c : ASRClient) (audio_bytes : List Nat) : ASRClient :=
  if c.running then { c with audio_queue := c.audio_queue ++ [some audio_bytes] }
  else c

/-- `RealtimeASRClient.stop()` (forced stop): clear `running`, then enqueue
the stop sentinel (socket closing and the bounded join are outside the state
model). -/
def ASRClient.stop (c : ASRClient) : ASRClient :=
  { c with running := false, audio_queue := c.audio_queue ++ [none] }

/-- `RealtimeASRClient.finish()` (graceful): enqueue the stop sentinel;
`running` is left set unless the timeout path forces a close. -/
def ASRClient.finish (c : ASRClient) : ASRClient :=
  { c with audio_queue := c.audio_queue ++ [none] }

/-- `RealtimeASRClient._force_close()`: clears `running` (task cancellation
and socket closing are outside the state model). -/
def ASRClient.force_close (c : ASRClient) : ASRClient :=
  { c with running := false }

/-! ### `AudioRecorderDelegate` (recording orchestrator) -/

/-- The result dict posted to `_result_data` for a blocked HTTP handler. -/
inductive ResultData where
  | stopped : String → Nat → Nat → ResultData
  | cancelled : String → Nat → ResultData
deriving DecidableEq

/-- The recording-relevant state of `AudioRecorderDelegate`.  Wall-clock
times are modelled as `Nat` instants passed to each action; UI (window,
waveform, pasteboard, paste subprocess) is outside the model. -/
structure DelegateState where
  is_recording : Bool
  recognized_text : String
  recording_start_time : Option Nat
  last_recording_duration : Nat
  last_recording_text : String
  asr_client : Option ASRClient
  stream : Bool
  result_event : Bool
  result_data : Option ResultData
deriving DecidableEq

/-- `AudioRecorderDelegate.init`. -/
def DelegateState.init : DelegateState :=
  { is_recording := false, recognized_text := "", recording_start_time := none,
    last_recording_duration := 0, last_recording_text := "", asr_client := none,
    stream := false, result_event := false, result_data := none }

/-- `resetForNewSession`. -/
def resetForNewSession (s : DelegateState) : DelegateState :=
  { s with
    is_recording := false, recognized_text := "", asr_client := none,
    stream := false }

/-- `startRecording` at instant `now`: marks recording, clears the running
transcript, records the start time, and creates + starts a fresh ASR client
and audio stream. -/
def startRecording (now : Nat) (s : DelegateState) : DelegateState :=
  { s with
    is_recording := true, recognized_text := "",
    recording_start_time := some now,
    asr_client := some (ASRClient.init.start), stream := true }

/-- `triggerStartRecording:`: ignored entirely when already recording,
otherwise resets for a new session and starts recording. -/
def triggerStartRecording (now : Nat) (s : DelegateState) : DelegateState :=
  if s.is_recording then s else startRecording now (resetForNewSession s)

/-- The duration computation shared by stop and cancel:
`time.time() - recording_start_time` when a start time exists, else `0.0`. -/
def recordedDuration (now : Nat) (s : DelegateState) : Nat :=
  match s.recording_start_time with
  | some t => now - t
  | none => 0

/-- `stopRecording:` at instant `now`: a guarded no-op when not recording;
otherwise computes the duration, shuts the stream and ASR client down,
punctuation-strips the transcript into `last_recording_text`, and posts the
result when an HTTP handler is waiting. -/
def stopRecording (now : Nat) (s : DelegateState) : DelegateState :=
  if ¬ s.is_recording then s
  else
    let dur := recordedDuration now s
    let text_to_paste :=
      if s.recognized_text ≠ "" then strip_trailing_punctuation s.recognized_text
      else ""
    { s with
      is_recording := false, last_recording_duration := dur,
      stream := false, asr_client := none, last_recording_text := text_to_paste,
      result_data :=
        if s.result_event then some (.stopped text_to_paste dur text_to_paste.length)
        else s.result_data }

/-- `cancelRecording:` at instant `now`.  Note: unlike `stopRecording:`, the
source has no `is_recording` guard — the body always runs, overwriting
`last_recording_duration` and clearing `last_recording_text`. -/
def cancelRecording (now : Nat) (s : DelegateState) : DelegateState :=
  let dur := recordedDuration now s
  { s with
    is_recording := false, last_recording_duration := dur,
    last_recording_text := "", stream := false, asr_client := none,
    result_data :=
      if s.result_event then some (.cancelled "" dur)
      else s.result_data }

/-! ### Control plane (`HTTPServerThread` handlers) -/

/-- The `status` field of a control-plane JSON response.
`alreadyRecording` is the HTTP-409 conflict outcome. -/
inductive HttpStatus where
  | alreadyRecording : HttpStatus
  | started : HttpStatus
  | notRecording : HttpStatus
  | stopped : HttpStatus
  | cancelled : HttpStatus
deriving DecidableEq

/-- `_handle_start`: conflict (409) without dispatching when already
recording; otherwise dispatches `triggerStartRecording:` and reports
`started`. -/
def handleStart (now : Nat) (s : DelegateState) : HttpStatus × DelegateState :=
  if s.is_recording then (.alreadyRecording, s)
  else (.started, triggerStartRecording now s)

/-- `_handle_stop`: when not recording, reports `not_recording` with the last
completed transcript and duration, without dispatching.  When recording, arms
the one-shot result event, dispatches `triggerStopRecording:`, and returns the
posted result (the dispatch/await concurrency is sequentialized). -/
def handleStop (now : Nat) (s : DelegateState) :
    HttpStatus × String × Nat × DelegateState :=
  if ¬ s.is_recording then
    (.notRecording, s.last_recording_text, s.last_recording_duration, s)
  else
    let s2 := stopRecording now { s with result_event := true, result_data := none }
    match s2.result_data with
    | some (.stopped t d _) => (.stopped, t, d, s2)
    | _ => (.stopped, "", 0, s2)

/-- `_handle_cancel`: when not recording, reports `not_recording` without
dispatching; otherwise arms the result event and dispatches
`triggerCancelRecording:`. -/
def handleCancel (now : Nat) (s : DelegateState) : HttpStatus × DelegateState :=
  if ¬ s.is_recording then (.notRecording, s)
  else (.cancelled, cancelRecording now { s with result_event := true, result_data := none })

/-! ### Derived definitions used by the statements -/

/-- The audio segmenter as a standalone component (the buffer-threading loop
of `_send_audio`, §4.2's `push`/`drain_final`): feed the chunks through the
remainder buffer, collecting the emitted full segments; the second component
is the final drained remainder. -/
def pushAll (buf : List Nat) : List (List Nat) → List (List Nat) × List Nat
  | [] => ([], buf)
  | c :: cs =>
      let p := splitSegments (buf ++ c)
      let q := pushAll p.2 cs
      (p.1 ++ q.1, q.2)

/-- Whether observing this event makes the receiver loop stop: a
`CLOSED`/`ERROR` transport message, a binary frame whose decoding raises, a
decoded frame whose text extraction raises, or a decoded frame with the
`is_last` flag or a non-zero error code. -/
def eventTerminates : WsEvent → Bool
  | .closedOrError => true
  | .timeout => false
  | .binary d =>
      match parse_response d with
      | none => true
      | some r =>
          match extractStep r with
          | none => true
          | some _ => r.is_last_package || r.code != 0

/-- A server full-response wire frame with `NO_SEQUENCE` flags carrying the
given JSON body — a concrete decoder input for the receiver-path
counterexample. -/
def serverFrameWithBody (body : Json) : List Nat :=
  let compressed := gzipCompress (jsonEncode body)
  [17, MessageType.SERVER_FULL_RESPONSE * 16 + MessageTypeSpecificFlags.NO_SEQUENCE,
    SerializationType.JSON * 16 + CompressionType.GZIP, 0]
    ++ packU32 compressed.length ++ compressed

/-- A message body whose `result.text` field is present but empty. -/
def emptyTextBody : Json :=
  .obj (.cons "result" (.obj (.cons "text" (.str "") .nil)) .nil)

/-- The arithmetic-progression view of the non-final sequence numbers. -/
def seqRange (seq : Int) (k : Nat) : List Int :=
  (List.range k).map fun i : Nat => seq + (i : Int)

/-- An Idle delegate state with a completed recording on record (transcript
`"hello"`, duration 99) — a concrete input for the cancel-while-Idle
counterexample. -/
def exampleIdleState : DelegateState :=
  { DelegateState.init with
    last_recording_text := "hello", last_recording_duration := 99,
    recording_start_time := some 3 }

/-! ## Helper lemmas -/

theorem length_natToBe32 (n : Nat) : (natToBe32 n).length = 4 := rfl

theorem length_packI32 (z : Int) : (packI32 z).length = 4 := rfl

theorem be32_roundtrip (n : Nat) (h : n < 2 ^ 32) : be32ToNat (natToBe32 n) = n := by
  simp only [be32ToNat, natToBe32]
  norm_num at h ⊢
  omega

theorem unpackI32_packI32 (z : Int) (r : List Nat) (h1 : -2 ^ 31 ≤ z) (h2 : z < 2 ^ 31) :
    unpackI32 (packI32 z ++ r) = some z := by
  have hlen : ¬ (packI32 z ++ r).length < 4 := by
    simp [packI32, natToBe32]
  have htake : (packI32 z ++ r).take 4 = packI32 z := by
    rw [show (4 : Nat) = (packI32 z).length from (length_packI32 z).symm, List.take_left]
  have hw : be32ToNat ((packI32 z ++ r).take 4) = (z % 2 ^ 32).toNat := by
    rw [htake]
    unfold packI32
    rw [be32_roundtrip]
    norm_num
    omega
  unfold unpackI32
  rw [if_neg hlen]
  simp only [hw, Option.some_inj]
  norm_num at h1 h2 ⊢
  split <;> omega

theorem segment_size_eq : segment_size = 6400 := rfl

theorem splitAux_spec (fuel : Nat) :
    ∀ buf : List Nat, buf.length ≤ segment_size * fuel →
      (splitAux fuel buf).1.flatten ++ (splitAux fuel buf).2 = buf ∧
      (∀ s ∈ (splitAux fuel buf).1, s.length = segment_size) ∧
      (splitAux fuel buf).2.length < segment_size := by
  induction fuel with
  | zero =>
      intro buf h
      have hb : buf = [] := by
        rw [segment_size_eq] at h
        simpa using List.length_eq_zero.mp (by omega)
      subst hb
      refine ⟨rfl, by simp [splitAux], by simp [splitAux, segment_size_eq]⟩
  | succ f ih =>
      intro buf h
      by_cases hb : buf.length ≥ segment_size
      · have hd : (buf.drop segment_size).length ≤ segment_size * f := by
          rw [List.length_drop, segment_size_eq] at *
          omega
        obtain ⟨e1, e2, e3⟩ := ih (buf.drop segment_size) hd
        simp only [splitAux, if_pos hb]
        refine ⟨?_, ?_, e3⟩
        · rw [List.flatten_cons, List.append_assoc, e1, List.take_append_drop]
        · intro s hs
          rcases List.mem_cons.mp hs with rfl | hs'
          · rw [List.length_take]
            omega
          · exact e2 s hs'
      · simp only [splitAux, if_neg hb]
        exact ⟨rfl, by simp, by omega⟩

theorem splitSegments_spec (buf : List Nat) :
    (splitSegments buf).1.flatten ++ (splitSegments buf).2 = buf ∧
    (∀ s ∈ (splitSegments buf).1, s.length = segment_size) ∧
    (splitSegments buf).2.length < segment_size :=
  splitAux_spec buf.length buf (by rw [segment_size_eq]; omega)

theorem pushAll_spec (cs : List (List Nat)) :
    ∀ buf : List Nat, buf.length < segment_size →
      (pushAll buf cs).1.flatten ++ (pushAll buf cs).2 = buf ++ cs.flatten ∧
      (∀ s ∈ (pushAll buf cs).1, s.length = segment_size) ∧
      (pushAll buf cs).2.length < segment_size := by
  induction cs with
  | nil =>
      intro buf h
      exact ⟨by simp [pushAll], by simp [pushAll], by simpa [pushAll] using h⟩
  | cons c cs ih =>
      intro buf h
      obtain ⟨s1, s2, s3⟩ := splitSegments_spec (buf ++ c)
      obtain ⟨i1, i2, i3⟩ := ih (splitSegments (buf ++ c)).2 s3
      simp only [pushAll]
      refine ⟨?_, ?_, i3⟩
      · rw [List.flatten_append, List.append_assoc, i1, ← List.append_assoc, s1]
        simp
      · intro s hs
        rcases List.mem_append.mp hs with hs' | hs'
        · exact s2 s hs'
        · exact i2 s hs'

theorem flatten_length_of_uniform (L : List (List Nat)) (n : Nat)
    (h : ∀ s ∈ L, s.length = n) : L.flatten.length = n * L.length := by
  induction L with
  | nil => simp
  | cons a L ih =>
      simp only [List.flatten_cons, List.length_append, List.length_cons]
      rw [ih (fun s hs => h s (List.mem_cons_of_mem a hs)), h a (List.mem_cons_self a L)]
      ring_nf

theorem segmentTxs_map_segment (l : List (List Nat)) :
    ∀ seq : Int, (segmentTxs seq l).map AudioTx.segment = l := by
  induction l with
  | nil => intro seq; rfl
  | cons s ss ih => intro seq; simp [segmentTxs, ih]

theorem sendAudioTx_segments (cs : List (List Nat)) :
    ∀ (seq : Int) (buf : List Nat),
      (sendAudioTx seq buf (cs.map some)).map AudioTx.segment
        = (pushAll buf cs).1 ++ [(pushAll buf cs).2] := by
  induction cs with
  | nil => intro seq buf; simp [sendAudioTx, pushAll]
  | cons c cs ih =>
      intro seq buf
      simp only [List.map_cons, sendAudioTx, pushAll, List.map_append]
      rw [segmentTxs_map_segment, ih]
      simp

/-- Claim C4: for any sequence of pushed byte chunks with total length
`k * 6400 + r` (`r < 6400`), the segmenter emits exactly `k` full 6400-byte
segments whose concatenation is the first `k * 6400` bytes of the input, and
the final drained remainder has length `r` (and equals the remaining bytes) —
regardless of how the input was chunked, since all outputs are functions of
`chunks.flatten` alone; the last conjunct grounds the segmenter in the
`_send_audio` loop: a session fed exactly these chunks transmits those `k`
segments followed by the remainder as its terminal segment. -/
theorem audio_segmenter_chunking (chunks : List (List Nat)) (seq : Int) :
    (pushAll [] chunks).1.length = chunks.flatten.length / segment_size ∧
    (∀ s ∈ (pushAll [] chunks).1, s.length = segment_size) ∧
    (pushAll [] chunks).1.flatten
      = chunks.flatten.take (segment_size * (chunks.flatten.length / segment_size)) ∧
    (pushAll [] chunks).2.length = chunks.flatten.length % segment_size ∧
    (pushAll [] chunks).2
      = chunks.flatten.drop (segment_size * (chunks.flatten.length / segment_size)) ∧
    (sendAudioTx seq [] (chunks.map some)).map AudioTx.segment
      = (pushAll [] chunks).1 ++ [(pushAll [] chunks).2] := by
  obtain ⟨p1, p2, p3⟩ := pushAll_spec chunks [] (by simp [segment_size_eq])
  simp only [List.nil_append] at p1
  have hjl : (pushAll [] chunks).1.flatten.length
      = segment_size * (pushAll [] chunks).1.length :=
    flatten_length_of_uniform _ _ p2
  have htotal : chunks.flatten.length
      = segment_size * (pushAll [] chunks).1.length + (pushAll [] chunks).2.length := by
    rw [← p1, List.length_append, hjl]
  have hk : (pushAll [] chunks).1.length = chunks.flatten.length / segment_size := by
    rw [segment_size_eq] at htotal p3 ⊢
    omega
  have hr : (pushAll [] chunks).2.length = chunks.flatten.length % segment_size := by
    rw [segment_size_eq] at htotal p3 ⊢
    omega
  refine ⟨hk, p2, ?_, hr, ?_, sendAudioTx_segments chunks seq []⟩
  · rw [← hk, ← hjl, ← p1, List.take_left]
  · rw [← hk, ← hjl, ← p1, List.drop_left]

theorem seqRange_zero (seq : Int) : seqRange seq 0 = [] := rfl

theorem seqRange_add (seq : Int) (m k : Nat) :
    seqRange seq (m + k) = seqRange seq m ++ seqRange (seq + m) k := by
  unfold seqRange
  rw [List.range_add, List.map_append, List.map_map]
  congr 1
  apply List.map_congr_left
  intro i _
  simp only [Function.comp_apply]
  push_cast
  ring_nf

theorem seqRange_succ_cons (seq : Int) (k : Nat) :
    seqRange seq (k + 1) = seq :: seqRange (seq + 1) k := by
  unfold seqRange
  rw [List.range_succ_eq_map, List.map_cons, List.map_map]
  congr 1
  · simp
  · apply List.map_congr_left
    intro i _
    simp only [Function.comp_apply, Nat.succ_eq_add_one]
    push_cast
    ring_nf

theorem segmentTxs_map_seq (l : List (List Nat)) :
    ∀ seq : Int, (segmentTxs seq l).map AudioTx.seq = seqRange seq l.length := by
  induction l with
  | nil => intro seq; rfl
  | cons s ss ih =>
      intro seq
      simp only [segmentTxs, List.map_cons, List.length_cons, seqRange_succ_cons, ih]

theorem segmentTxs_map_isLast (l : List (List Nat)) :
    ∀ seq : Int, (segmentTxs seq l).map AudioTx.isLast = List.replicate l.length false := by
  induction l with
  | nil => intro seq; rfl
  | cons s ss ih =>
      intro seq
      simp [segmentTxs, ih, List.replicate_succ]

theorem segmentTxs_map_wireSeq (l : List (List Nat)) :
    ∀ seq : Int, (segmentTxs seq l).map txWireSeq = seqRange seq l.length := by
  induction l with
  | nil => intro seq; rfl
  | cons s ss ih =>
      intro seq
      simp only [segmentTxs, List.map_cons, List.length_cons, seqRange_succ_cons, ih,
        txWireSeq, if_neg]
      simp

theorem sendAudioTx_shape (items : List (Option (List Nat))) :
    ∀ (seq : Int) (buf : List Nat), ∃ k : Nat,
      (sendAudioTx seq buf items).map AudioTx.seq = seqRange seq k ++ [seq + k] ∧
      (sendAudioTx seq buf items).map AudioTx.isLast = List.replicate k false ++ [true] ∧
      (sendAudioTx seq buf items).map txWireSeq = seqRange seq k ++ [-(seq + k)] := by
  induction items with
  | nil =>
      intro seq buf
      exact ⟨0, by simp [sendAudioTx, seqRange_zero], by simp [sendAudioTx],
        by simp [sendAudioTx, seqRange_zero, txWireSeq]⟩
  | cons it rest ih =>
      cases it with
      | none =>
          intro seq buf
          exact ⟨0, by simp [sendAudioTx, seqRange_zero], by simp [sendAudioTx],
            by simp [sendAudioTx, seqRange_zero, txWireSeq]⟩
      | some c =>
          intro seq buf
          obtain ⟨k', h1, h2, h3⟩ :=
            ih (seq + (splitSegments (buf ++ c)).1.length) (splitSegments (buf ++ c)).2
          refine ⟨(splitSegments (buf ++ c)).1.length + k', ?_, ?_, ?_⟩
          · simp only [sendAudioTx, List.map_append, h1, segmentTxs_map_seq,
              seqRange_add, List.append_assoc]
            congr 2
            push_cast
            ring_nf
          · simp only [sendAudioTx, List.map_append, h2, segmentTxs_map_isLast,
              List.replicate_add, List.append_assoc]
          · simp only [sendAudioTx, List.map_append, h3, segmentTxs_map_wireSeq,
              seqRange_add, List.append_assoc]
            congr 3
            push_cast
            ring_nf

theorem flags_new_audio_only_request (q : Int) (seg : List Nat) (b : Bool) :
    frameFlagsNibble (new_audio_only_request q seg b)
      = if b then MessageTypeSpecificFlags.NEG_WITH_SEQUENCE
        else MessageTypeSpecificFlags.POS_SEQUENCE := by
  cases b <;>
    simp [new_audio_only_request, frameFlagsNibble, asrHeaderBytes, List.cons_append,
      MessageTypeSpecificFlags.NEG_WITH_SEQUENCE, MessageTypeSpecificFlags.POS_SEQUENCE,
      MessageType.CLIENT_AUDIO_ONLY_REQUEST, SerializationType.JSON, CompressionType.GZIP]

theorem map_flag_of_isLast (A B : Nat) : ∀ (txs : List AudioTx) (k : Nat),
    txs.map AudioTx.isLast = List.replicate k false ++ [true] →
    (txs.map fun t => if t.isLast then A else B) = List.replicate k B ++ [A] := by
  intro txs
  induction txs with
  | nil =>
      intro k h
      exfalso
      have hl := congrArg List.length h
      simp at hl
  | cons t ts ih =>
      intro k h
      cases k with
      | zero =>
          simp only [List.replicate, List.nil_append, List.map_cons] at h ⊢
          obtain ⟨ht, hts⟩ := List.cons_eq_cons.mp h
          simp [ht, List.map_eq_nil_iff.mp hts]
      | succ k' =>
          rw [List.replicate_succ, List.cons_append, List.map_cons] at h
          obtain ⟨ht, hts⟩ := List.cons_eq_cons.mp h
          simp only [List.map_cons, ht, List.replicate_succ, List.cons_append]
          rw [ih k' hts]
          simp

theorem asrSessionAudioTx_eq (items : List (Option (List Nat))) :
    asrSessionAudioTx items = sendAudioTx 2 [] items := by
  norm_num [asrSessionAudioTx, asrSessionStartSeq]

/-- Claim C1 (amended): the session's sequence counter starts at 1 but is
consumed by the handshake (the full client request is sent with sequence 1 and
the counter incremented), so for a session transmitting `N` audio segments the
audio-segment frames carry sequences `2 .. N+1` in increasing order (one
increment per audio segment), and the terminal segment transmits the negation
of the next counter value — `-(N+2)`, not `-(N+1)` — with the
`NEG_WITH_SEQUENCE` flag. -/
theorem session_sequence_numbering (items : List (Option (List Nat))) :
    asrSessionHandshakeFrame = new_full_client_request 1 ∧
    ∃ k : Nat,
      (asrSessionAudioTx items).map AudioTx.seq = seqRange 2 k ++ [(2 : Int) + k] ∧
      (asrSessionAudioTx items).map AudioTx.isLast = List.replicate k false ++ [true] ∧
      (asrSessionAudioTx items).map txWireSeq = seqRange 2 k ++ [-((2 : Int) + k)] ∧
      ((asrSessionAudioTx items).map fun t =>
          frameFlagsNibble (new_audio_only_request t.seq t.segment t.isLast))
        = List.replicate k MessageTypeSpecificFlags.POS_SEQUENCE
            ++ [MessageTypeSpecificFlags.NEG_WITH_SEQUENCE] := by
  refine ⟨rfl, ?_⟩
  obtain ⟨k, h1, h2, h3⟩ := sendAudioTx_shape items 2 []
  rw [asrSessionAudioTx_eq]
  refine ⟨k, h1, h2, h3, ?_⟩
  have hcong : ((sendAudioTx 2 [] items).map fun t =>
      frameFlagsNibble (new_audio_only_request t.seq t.segment t.isLast))
      = (sendAudioTx 2 [] items).map fun t =>
          if t.isLast then MessageTypeSpecificFlags.NEG_WITH_SEQUENCE
          else MessageTypeSpecificFlags.POS_SEQUENCE := by
    apply List.map_congr_left
    intro t _
    exact flags_new_audio_only_request t.seq t.segment t.isLast
  rw [hcong]
  exact map_flag_of_isLast _ _ _ k h2

/-- Claim C1 as stated is false on the code: instantiating it at a session
that transmits `N = 0` audio segments (start, then immediate stop sentinel),
the claim says the terminal segment transmits `-(N+1) = -1`; the code
transmits wire sequence `-2`, because the handshake has already consumed
sequence 1 and incremented the counter to 2. -/
theorem session_sequence_claim_counterexample :
    (asrSessionAudioTx []).map txWireSeq = [-2] ∧
    (asrSessionAudioTx []).map AudioTx.isLast = [true] ∧
    (asrSessionAudioTx []).map txWireSeq ≠ [-1] := by
  refine ⟨by decide, by decide, by decide⟩

theorem seqField_new_audio_only_request (q : Int) (seg : List Nat) (b : Bool)
    (h1 : -2 ^ 31 < q) (h2 : q < 2 ^ 31) :
    frameSeqField (new_audio_only_request q seg b) = some (if b then -q else q) := by
  have hdrop : ∀ (F : Nat) (X : List Nat),
      (asrHeaderBytes MessageType.CLIENT_AUDIO_ONLY_REQUEST F ++ X).drop 4 = X :=
    fun F X => rfl
  cases b with
  | true =>
      show frameSeqField (new_audio_only_request q seg true) = some (-q)
      unfold frameSeqField new_audio_only_request
      simp only [reduceIte]
      rw [List.append_assoc, List.append_assoc, hdrop]
      exact unpackI32_packI32 (-q) _ (by norm_num at h2 ⊢; omega)
        (by norm_num at h1 ⊢; omega)
  | false =>
      show frameSeqField (new_audio_only_request q seg false) = some q
      unfold frameSeqField new_audio_only_request
      simp only [Bool.false_eq_true, reduceIte]
      rw [List.append_assoc, List.append_assoc, hdrop]
      exact unpackI32_packI32 q _ (by norm_num at h1 ⊢; omega)
        (by norm_num at h2 ⊢; omega)

theorem segmentTxs_filter_isLast (l : List (List Nat)) :
    ∀ seq : Int, (segmentTxs seq l).filter (fun t => t.isLast) = [] := by
  induction l with
  | nil => intro seq; rfl
  | cons s ss ih =>
      intro seq
      simp only [segmentTxs, List.filter_cons]
      rw [ih]
      simp

theorem sendAudioTx_one_final (items : List (Option (List Nat))) :
    ∀ (seq : Int) (buf : List Nat),
      ((sendAudioTx seq buf items).filter fun t => t.isLast).length = 1 := by
  induction items with
  | nil => intro seq buf; rfl
  | cons it rest ih =>
      cases it with
      | none => intro seq buf; rfl
      | some c =>
          intro seq buf
          simp only [sendAudioTx, List.filter_append, List.length_append,
            segmentTxs_filter_isLast, List.length_nil, ih]

/-- Claim C5: encoding an audio-segment frame with `is_final = true` sets the
`NEG_WITH_SEQUENCE` flags and transmits the negation of the given sequence
number, while `is_final = false` sets `POS_SEQUENCE` and transmits the
sequence as-is; and the sender path transmits exactly one terminal frame —
immediately on stop-sentinel receipt, and even when the drained remainder is
empty (the empty remainder is sent as `b''`). -/
theorem final_frame_encoding (seq : Int) (segment : List Nat)
    (items : List (Option (List Nat))) (buf : List Nat)
    (h1 : -2 ^ 31 < seq) (h2 : seq < 2 ^ 31) :
    frameFlagsNibble (new_audio_only_request seq segment true)
      = MessageTypeSpecificFlags.NEG_WITH_SEQUENCE ∧
    frameSeqField (new_audio_only_request seq segment true) = some (-seq) ∧
    frameFlagsNibble (new_audio_only_request seq segment false)
      = MessageTypeSpecificFlags.POS_SEQUENCE ∧
    frameSeqField (new_audio_only_request seq segment false) = some seq ∧
    ((sendAudioTx seq buf items).filter fun t => t.isLast).length = 1 ∧
    sendAudioTx seq buf (none :: items) = [⟨seq, buf, true⟩] := by
  refine ⟨?_, ?_, ?_, ?_, sendAudioTx_one_final items seq buf, rfl⟩
  · exact flags_new_audio_only_request seq segment true
  · exact seqField_new_audio_only_request seq segment true h1 h2
  · exact flags_new_audio_only_request seq segment false
  · exact seqField_new_audio_only_request seq segment false h1 h2

/-- Witness for `final_frame_encoding` at `seq = 5`, segment `[1, 2]`, an
empty item stream and empty buffer. -/
theorem final_frame_encoding_witness :
    frameSeqField (new_audio_only_request 5 [1, 2] true) = some (-5) ∧
    ((sendAudioTx 5 [] []).filter fun t => t.isLast).length = 1 := by
  have h := final_frame_encoding 5 [1, 2] [] [] (by norm_num) (by norm_num)
  exact ⟨h.2.1, h.2.2.2.2.1⟩

theorem drop4_packI32 (z : Int) (X : List Nat) : (packI32 z ++ X).drop 4 = X := by
  rw [show (4 : Nat) = (packI32 z).length from rfl, List.drop_left]

theorem length_packU32 (n : Nat) : (packU32 n).length = 4 := rfl

theorem length_gzipCompress (b : List Nat) : (gzipCompress b).length = b.length + 2 := by
  simp [gzipCompress]

theorem gzipDecompress_head_ne (a : Nat) (l : List Nat) (h : a ≠ 31) :
    gzipDecompress (a :: l) = none := by
  unfold gzipDecompress
  split
  · rename_i rest heq
    injection heq with h1 _
    exact absurd h1 h
  · rfl

theorem parse_client_frame (mt : Nat) (b : Bool) (z : Int) (gz0 : List Nat)
    (hmt : mt = MessageType.CLIENT_FULL_REQUEST ∨ mt = MessageType.CLIENT_AUDIO_ONLY_REQUEST)
    (hz1 : -2 ^ 31 ≤ z) (hz2 : z < 2 ^ 31) (hlen : gz0.length < 2 ^ 24) :
    parse_response (asrHeaderBytes mt
        (if b then MessageTypeSpecificFlags.NEG_WITH_SEQUENCE
          else MessageTypeSpecificFlags.POS_SEQUENCE)
        ++ packI32 z ++ packU32 gz0.length ++ gz0)
      = some { code := 0, is_last_package := b, payload_sequence := z,
               payload_msg := none } := by
  have hgz : gzipDecompress (packU32 gz0.length ++ gz0) = none := by
    have h24 : gz0.length / 2 ^ 24 % 256 ≠ 31 := by
      norm_num at hlen ⊢
      omega
    simp only [packU32, natToBe32, List.cons_append]
    exact gzipDecompress_head_ne _ _ h24
  have hne : packU32 gz0.length ++ gz0 ≠ [] := by
    simp [packU32, natToBe32]
  rcases hmt with rfl | rfl <;> cases b <;>
  · simp only [MessageType.CLIENT_FULL_REQUEST, MessageType.CLIENT_AUDIO_ONLY_REQUEST,
      MessageTypeSpecificFlags.NEG_WITH_SEQUENCE, MessageTypeSpecificFlags.POS_SEQUENCE,
      Bool.false_eq_true, reduceIte, asrHeaderBytes, SerializationType.JSON,
      CompressionType.GZIP, List.cons_append, List.nil_append, List.append_assoc]
    norm_num
    simp only [parse_response, parseMeta, parseSeqField, List.getD_cons_zero,
      List.getD_cons_succ, List.length_cons, length_packI32, length_packU32,
      List.length_append, MessageType.SERVER_FULL_RESPONSE,
      MessageType.SERVER_ERROR_RESPONSE, CompressionType.GZIP, SerializationType.JSON]
    norm_num
    rw [if_neg (show ¬(4 + (4 + gz0.length) + 1 + 1 + 1 + 1 < 3) by omega)]
    simp only [unpackI32_packI32 z (packU32 gz0.length ++ gz0) hz1 hz2, drop4_packI32]
    rw [if_neg hne]
    simp [hgz, AsrResponse.init]

theorem new_audio_only_request_eq (q : Int) (seg : List Nat) (b : Bool) :
    new_audio_only_request q seg b
      = asrHeaderBytes MessageType.CLIENT_AUDIO_ONLY_REQUEST
          (if b then MessageTypeSpecificFlags.NEG_WITH_SEQUENCE
            else MessageTypeSpecificFlags.POS_SEQUENCE)
        ++ packI32 (if b then -q else q) ++ packU32 (gzipCompress seg).length
        ++ gzipCompress seg := by
  cases b <;> rfl

theorem new_full_client_request_eq (q : Int) :
    new_full_client_request q
      = asrHeaderBytes MessageType.CLIENT_FULL_REQUEST MessageTypeSpecificFlags.POS_SEQUENCE
        ++ packI32 q
        ++ packU32 (gzipCompress (jsonEncode fullClientRequestPayload)).length
        ++ gzipCompress (jsonEncode fullClientRequestPayload) := rfl

set_option maxRecDepth 40000 in
/-- Claim C2 (amended): decoding a codec-built request frame recovers the
transmitted sequence number and the last-frame bit (`is_last_package` is set
exactly for `NEG_WITH_SEQUENCE` frames), but nothing else: the parser is a
server-response decoder, so for client message types it never consumes the
payload-size field, gzip decompression of `size ‖ compressed-payload` fails,
and the frame degrades to metadata — the original message type, flags nibble
and payload bytes are not recovered (the result record has no fields for
them). -/
theorem frame_roundtrip_metadata (seq : Int) (payload : List Nat) (isLast : Bool)
    (h1 : -2 ^ 31 < seq) (h2 : seq < 2 ^ 31) (h3 : payload.length + 2 < 2 ^ 24) :
    parse_response (new_audio_only_request seq payload isLast)
      = some { code := 0, is_last_package := isLast,
               payload_sequence := if isLast then -seq else seq, payload_msg := none } ∧
    parse_response (new_full_client_request seq)
      = some { code := 0, is_last_package := false, payload_sequence := seq,
               payload_msg := none } := by
  constructor
  · rw [new_audio_only_request_eq]
    exact parse_client_frame MessageType.CLIENT_AUDIO_ONLY_REQUEST isLast
      (if isLast then -seq else seq) (gzipCompress payload) (Or.inr rfl)
      (by cases isLast <;> (norm_num at h1 h2 ⊢; omega))
      (by cases isLast <;> (norm_num at h1 h2 ⊢; omega))
      (by rw [length_gzipCompress]; norm_num at h3 ⊢; omega)
  · rw [new_full_client_request_eq,
      show MessageTypeSpecificFlags.POS_SEQUENCE
        = (if false then MessageTypeSpecificFlags.NEG_WITH_SEQUENCE
            else MessageTypeSpecificFlags.POS_SEQUENCE) from rfl]
    exact parse_client_frame MessageType.CLIENT_FULL_REQUEST false seq
      (gzipCompress (jsonEncode fullClientRequestPayload)) (Or.inl rfl)
      (by norm_num at h1 ⊢; omega) (by norm_num at h2 ⊢; omega)
      (by decide)

/-- Witness for `frame_roundtrip_metadata` at sequence 1, payload
`[1, 2, 3]`, non-final. -/
theorem frame_roundtrip_metadata_witness :
    parse_response (new_audio_only_request 1 [1, 2, 3] false)
      = some { code := 0, is_last_package := false, payload_sequence := 1,
               payload_msg := none } := by
  have h := frame_roundtrip_metadata 1 [1, 2, 3] false (by norm_num) (by norm_num)
    (by norm_num)
  simpa using h.1

set_option maxRecDepth 40000 in
/-- Claim C2 as stated is false: two audio-segment frames with different
payload bytes — and the handshake frame, with a different message type and
payload — all decode to the very same metadata-only response, so no function
of the decoder's output recovers the original payload bytes or message type. -/
theorem frame_roundtrip_counterexample :
    new_audio_only_request 1 [1, 2, 3] false ≠ new_audio_only_request 1 [9, 9, 9] false ∧
    parse_response (new_audio_only_request 1 [1, 2, 3] false)
      = parse_response (new_audio_only_request 1 [9, 9, 9] false) ∧
    parse_response (new_full_client_request 1)
      = parse_response (new_audio_only_request 1 [1, 2, 3] false) := by
  refine ⟨by decide, by decide, by decide⟩

theorem parseSeqField_payload_msg_none (flags : Nat) (p : List Nat)
    (r1 : AsrResponse) (p1 : List Nat)
    (h : parseSeqField flags p = some (r1, p1)) : r1.payload_msg = none := by
  unfold parseSeqField at h
  split at h
  · split at h
    · exact absurd h (by simp)
    · simp only [Option.some_inj, Prod.mk.injEq] at h
      obtain ⟨hr, -⟩ := h
      rw [← hr]
      rfl
  · simp only [Option.some_inj, Prod.mk.injEq] at h
    obtain ⟨hr, -⟩ := h
    rw [← hr]
    rfl

theorem parseMeta_payload_msg_none (msg : List Nat) (r : AsrResponse)
    (payload : List Nat) (ser comp : Nat)
    (h : parseMeta msg = some (r, payload, ser, comp)) : r.payload_msg = none := by
  unfold parseMeta at h
  split at h
  · exact absurd h (by simp)
  · simp only [] at h
    split at h
    · exact absurd h (by simp)
    · rename_i r1 p1 heq
      have hr1 : r1.payload_msg = none := parseSeqField_payload_msg_none _ _ _ _ heq
      repeat' split at h
      all_goals simp at h
      all_goals obtain ⟨hr, -⟩ := h
      all_goals subst hr
      all_goals simp_all

/-- Claim C6: for every input frame whose header is well-formed (i.e. the
metadata stage succeeds), decoding never raises on a malformed trailing
payload: when gzip decompression of a non-empty payload fails, the parser
returns the frame decoded so far — code, is-last bit and sequence — with no
message body, and when JSON parsing of the decompressed payload fails the
message likewise stays unset; processing degrades to a metadata-only frame
rather than an error. -/
theorem decode_degrades (msg : List Nat) (r : AsrResponse) (payload : List Nat)
    (ser comp : Nat) (h : parseMeta msg = some (r, payload, ser, comp)) :
    r.payload_msg = none ∧
    (payload ≠ [] → comp = CompressionType.GZIP → gzipDecompress payload = none →
      parse_response msg = some r) ∧
    (∀ p, payload ≠ [] → comp = CompressionType.GZIP → gzipDecompress payload = some p →
      ser = SerializationType.JSON → jsonParse p = none →
      parse_response msg = some r) := by
  have hnone := parseMeta_payload_msg_none msg r payload ser comp h
  refine ⟨hnone, ?_, ?_⟩
  · intro hne hcomp hgz
    unfold parse_response
    rw [h]
    simp [hne, hcomp, hgz]
  · intro p hne hcomp hgz hser hjson
    unfold parse_response
    rw [h]
    simp only [hne, hcomp, hgz, hser, hjson, reduceIte, if_neg]
    obtain ⟨rc, rl, rs, rm⟩ := r
    simp only [AsrResponse.mk.injEq] at hnone ⊢
    simp [hne, hnone]

/-- Witness for `decode_degrades`: a server full-response frame whose trailing
payload `[1, 2, 3]` is not valid gzip data decodes to the metadata-only
response. -/
theorem decode_degrades_witness :
    parseMeta ([17, 144, 17, 0] ++ packU32 3 ++ [1, 2, 3])
      = some (AsrResponse.init, [1, 2, 3], 1, 1) ∧
    parse_response ([17, 144, 17, 0] ++ packU32 3 ++ [1, 2, 3])
      = some AsrResponse.init := by
  have h : parseMeta ([17, 144, 17, 0] ++ packU32 3 ++ [1, 2, 3])
      = some (AsrResponse.init, [1, 2, 3], 1, 1) := by decide
  exact ⟨h, (decode_degrades _ _ _ _ _ h).2.1 (by decide) rfl (by decide)⟩

/-- Claim C3 (amended): `stop()` while Idle is a genuine no-op (guarded by
`is_recording`), and the HTTP stop and cancel routes while Idle report
`not_recording` — stop returning the last completed transcript and duration —
without dispatching anything.  But the orchestrator-level `cancelRecording:`
itself has no Idle guard: invoked while Idle it clears the last completed
transcript to `""` and overwrites the last completed duration.  (Only the
HTTP route's guard keeps cancel-while-Idle harmless.) -/
theorem idle_noop (s : DelegateState) (now : Nat) (h : s.is_recording = false) :
    stopRecording now s = s ∧
    handleStop now s = (.notRecording, s.last_recording_text,
      s.last_recording_duration, s) ∧
    handleCancel now s = (.notRecording, s) ∧
    (cancelRecording now s).last_recording_text = "" ∧
    (cancelRecording now s).last_recording_duration = recordedDuration now s ∧
    (cancelRecording now s).is_recording = false := by
  refine ⟨?_, ?_, ?_, rfl, rfl, rfl⟩
  · simp [stopRecording, h]
  · simp [handleStop, h]
  · simp [handleCancel, h]

/-- Witness for `idle_noop` on a concrete Idle state. -/
theorem idle_noop_witness :
    exampleIdleState.is_recording = false ∧
    stopRecording 5 exampleIdleState = exampleIdleState ∧
    handleCancel 5 exampleIdleState = (.notRecording, exampleIdleState) := by
  have h := idle_noop exampleIdleState 5 rfl
  exact ⟨rfl, h.1, h.2.2.1⟩

/-- Claim C3 as stated is false for the orchestrator-level `cancel()`: on an
Idle state whose last completed transcript is `"hello"` and duration 99,
`cancelRecording:` at instant 10 replaces the transcript with `""` and the
duration with `10 − 3 = 7`. -/
theorem cancel_idle_counterexample :
    exampleIdleState.is_recording = false ∧
    exampleIdleState.last_recording_text = "hello" ∧
    (cancelRecording 10 exampleIdleState).last_recording_text
      ≠ exampleIdleState.last_recording_text ∧
    (cancelRecording 10 exampleIdleState).last_recording_duration
      ≠ exampleIdleState.last_recording_duration := by
  exact ⟨rfl, rfl, by decide, by decide⟩

/-- Claim C7: `start()` while a recording is Active leaves the entire
delegate state (including the running session) unchanged, and the control
plane reports the 409 conflict without dispatching; the running session is
never pre-empted. -/
theorem start_conflict (s : DelegateState) (now : Nat) (h : s.is_recording = true) :
    triggerStartRecording now s = s ∧
    handleStart now s = (.alreadyRecording, s) := by
  constructor
  · simp [triggerStartRecording, h]
  · simp [handleStart, h]

/-- Witness for `start_conflict` on the state reached by starting a recording
from the initial state. -/
theorem start_conflict_witness :
    triggerStartRecording 7 (startRecording 0 DelegateState.init)
      = startRecording 0 DelegateState.init ∧
    handleStart 7 (startRecording 0 DelegateState.init)
      = (.alreadyRecording, startRecording 0 DelegateState.init) :=
  start_conflict (startRecording 0 DelegateState.init) 7 rfl

/-- Claim C9: `strip_trailing_punctuation` strips trailing ASCII and
full-width punctuation — `"你好。" ↦ "你好"`, `"hello!" ↦ "hello"` — and any
string whose last character is outside the punctuation set is returned
unchanged. -/
theorem strip_punctuation_spec :
    strip_trailing_punctuation "你好。" = "你好" ∧
    strip_trailing_punctuation "hello!" = "hello" ∧
    ∀ (s : String) (c : Char), s.data.getLast? = some c →
      c ∉ trailingPunctuation → strip_trailing_punctuation s = s := by
  refine ⟨by decide, by decide, ?_⟩
  intro s c hlast hc
  unfold strip_trailing_punctuation
  have hrev : s.data.reverse.head? = some c := by
    rw [List.head?_reverse]
    exact hlast
  obtain ⟨t, ht⟩ : ∃ t, s.data.reverse = c :: t := by
    cases hre : s.data.reverse with
    | nil => rw [hre] at hrev; cases hrev
    | cons a t =>
        rw [hre] at hrev
        simp only [List.head?_cons, Option.some_inj] at hrev
        exact ⟨t, by rw [hrev]⟩
  rw [ht, List.dropWhile_cons, if_neg (by simp [hc]), ← ht, List.reverse_reverse]

/-- Witness for `strip_punctuation_spec` part 3 at `"abc"`. -/
theorem strip_punctuation_witness :
    strip_trailing_punctuation "abc" = "abc" :=
  strip_punctuation_spec.2.2 "abc" 'c' (by decide) (by decide)

/-- Claim C10: `feed_audio(b)` appends `b` to the session's audio queue
exactly when the `running` flag is set; after `stop()` (forced stop) or
`_force_close()` has cleared `running`, a late `feed_audio` leaves the queue
unchanged — the chunk is silently dropped. -/
theorem feed_audio_gated (c : ASRClient) (b : List Nat) :
    ((c.feed_audio b).audio_queue = c.audio_queue ++ [some b] ↔ c.running = true) ∧
    (c.stop.feed_audio b).audio_queue = c.stop.audio_queue ∧
    (c.force_close.feed_audio b).audio_queue = c.force_close.audio_queue := by
  refine ⟨⟨?_, ?_⟩, ?_, ?_⟩
  · intro hq
    cases hr : c.running with
    | true => rfl
    | false =>
        exfalso
        simp only [ASRClient.feed_audio, hr, Bool.false_eq_true, if_neg] at hq
        have hlen := congrArg List.length hq
        simp at hlen
  · intro hr
    simp [ASRClient.feed_audio, hr]
  · simp [ASRClient.feed_audio, ASRClient.stop]
  · simp [ASRClient.feed_audio, ASRClient.force_close]


theorem extractStep_of_result_text (r : AsrResponse) (m res : JsonObj) (t : String)
    (hm : r.payload_msg = some (.obj m))
    (hres : jsonObjLookup "result" m = some (.obj res))
    (ht : jsonObjLookup "text" res = some (.str t)) :
    extractStep r = some (if t ≠ "" then some (.str t) else none) := by
  rw [extractStep, hm]
  cases m with
  | nil => rw [jsonObjLookup] at hres; cases hres
  | cons k v rest2 =>
      simp only [jsonTruthy, pyContains, hres, pySubscript, pyGetDefault, ht,
        Option.isSome_some, Option.getD_some, reduceIte]
      by_cases hte : t = ""
      · simp [hte, jsonTruthy]
      · simp [hte, jsonTruthy]

theorem receiveLoop_terminates (events : List WsEvent) :
    ((receiveLoop events).2 ≠ none ↔ ∃ e ∈ events, eventTerminates e = true) := by
  induction events with
  | nil => simp [receiveLoop]
  | cons e rest ih =>
      cases e with
      | timeout =>
          simp only [receiveLoop, List.mem_cons, eventTerminates]
          rw [ih]
          constructor
          · intro ⟨e2, hmem, hterm⟩
            exact ⟨e2, Or.inr hmem, hterm⟩
          · intro ⟨e2, hmem, hterm⟩
            rcases hmem with rfl | hmem
            · cases hterm
            · exact ⟨e2, hmem, hterm⟩
      | closedOrError =>
          simp [receiveLoop, eventTerminates]
      | binary d =>
          simp only [receiveLoop]
          cases hp : parse_response d with
          | none =>
              simp only [ne_eq, reduceCtorEq, not_false_eq_true, true_iff]
              exact ⟨.binary d, List.mem_cons_self _ _, by simp [eventTerminates, hp]⟩
          | some r =>
              cases he : extractStep r with
              | none =>
                  simp only [he, ne_eq, reduceCtorEq, not_false_eq_true, true_iff]
                  exact ⟨.binary d, List.mem_cons_self _ _,
                    by simp [eventTerminates, hp, he]⟩
              | some cb =>
                  by_cases hl : r.is_last_package = true
                  · simp only [he, hl, reduceIte, ne_eq, reduceCtorEq,
                      not_false_eq_true, true_iff]
                    exact ⟨.binary d, List.mem_cons_self _ _,
                      by simp [eventTerminates, hp, he, hl]⟩
                  · by_cases hc : r.code = 0
                    · simp only [he, hl, hc, ne_eq, not_true_eq_false,
                        Bool.false_eq_true, reduceIte, not_false_eq_true]
                      constructor
                      · intro h3
                        obtain ⟨e2, hmem, hterm⟩ := ih.mp h3
                        exact ⟨e2, List.mem_cons_of_mem _ hmem, hterm⟩
                      · intro ⟨e2, hmem, hterm⟩
                        rcases List.mem_cons.mp hmem with rfl | hmem2
                        · rw [eventTerminates] at hterm
                          simp [hp, he, hl, hc] at hterm
                        · exact ih.mpr ⟨e2, hmem2, hterm⟩
                    · simp only [he, hl, hc, ne_eq, Bool.false_eq_true, reduceIte,
                        not_false_eq_true, reduceCtorEq, true_iff]
                      exact ⟨.binary d, List.mem_cons_self _ _,
                        by simp [eventTerminates, hp, he, hc]⟩

/-- Claim C8 (amended): for every decoded frame whose message body is an
object whose `result` field is an object carrying a `text` string, the
receiver invokes the session's text callback with that text exactly when it
is non-empty (an empty `text` is skipped by the `if text` guard); and, over
any finite stream of observed WebSocket events, the receiver loop terminates
exactly when it observes the `is_last` flag, a non-zero error code, a
transport close/error, a binary frame whose decoding raises, or a decoded
frame whose text extraction raises (Python's `in`/indexing/`.get` on
non-dict bodies or a non-dict `result`, which ends the loop via the outer
exception handler). -/
theorem receiver_text_and_termination (events : List WsEvent) (r : AsrResponse)
    (m res : JsonObj) (t : String)
    (hm : r.payload_msg = some (.obj m))
    (hres : jsonObjLookup "result" m = some (.obj res))
    (ht : jsonObjLookup "text" res = some (.str t)) :
    extractStep r = some (if t ≠ "" then some (.str t) else none) ∧
    ((receiveLoop events).2 ≠ none ↔ ∃ e ∈ events, eventTerminates e = true) :=
  ⟨extractStep_of_result_text r m res t hm hres ht, receiveLoop_terminates events⟩

/-- Witness for `receiver_text_and_termination`: a decoded frame carrying
`result.text = "hi"` (callback invoked with `"hi"`), and a one-event stream
that closes the transport. -/
theorem receiver_text_and_termination_witness :
    extractStep ⟨0, false, 0, some (.obj (.cons "result"
        (.obj (.cons "text" (.str "hi") .nil)) .nil))⟩
      = some (if ("hi" : String) ≠ "" then some (.str "hi") else none) ∧
    ((receiveLoop [.closedOrError]).2 ≠ none ↔
      ∃ e ∈ [WsEvent.closedOrError], eventTerminates e = true) :=
  receiver_text_and_termination [.closedOrError]
    ⟨0, false, 0, some (.obj (.cons "result"
      (.obj (.cons "text" (.str "hi") .nil)) .nil))⟩
    (.cons "result" (.obj (.cons "text" (.str "hi") .nil)) .nil)
    (.cons "text" (.str "hi") .nil) "hi" rfl (by decide) (by decide)

/-- Claim C8 as stated is false on two counts.  (1) A frame whose body
carries `result.text = ""` has the recognized-text field, yet the receiver
invokes no callback (the collected list is empty) and the loop keeps
running.  (2) The loop also terminates on causes outside the claim's list: a
numeric body makes `'result' in payload_msg` raise `TypeError`, and a
non-dict `result` makes `.get` raise `AttributeError` — both end the loop
through the outer exception handler with no `is_last` flag, error code, or
transport close observed. -/
theorem receiver_callback_counterexample :
    parse_response (serverFrameWithBody emptyTextBody)
      = some { code := 0, is_last_package := false, payload_sequence := 0,
               payload_msg := some emptyTextBody } ∧
    hasRecognizedTextField
        { code := 0, is_last_package := false, payload_sequence := 0,
          payload_msg := some emptyTextBody } = true ∧
    receiveLoop [.binary (serverFrameWithBody emptyTextBody)] = ([], none) ∧
    receiveLoop [.binary (serverFrameWithBody (.num 5))]
      = ([], some .extractionRaised) ∧
    receiveLoop [.binary (serverFrameWithBody
        (.obj (.cons "result" (.str "x") .nil)))]
      = ([], some .extractionRaised) := by
  exact ⟨by decide, by decide, by decide, by decide, by decide⟩
